import Mathlib

/-!
# Verification of the policy-legal-app knowledge core

Shallow embedding of the Knowledge Store core of the `policy-legal-app-AI`
repository (`app/backend/knowledge.py`, `app/api.py`) together with the
spec-described collaborators that the repository imports but whose sources
are not part of the checked tree (`app.nlp.embedding.VectorIndex`,
`app.agent.qa_agent.answer_query`, `app.models.classifier`).  Python dicts
are modelled as insertion-ordered association lists, floats as rationals,
and the external embedding model as an explicit function parameter.
-/

namespace PolicyLegal

/-- A JSON-like value stored in a metadata record (Python dict values). -/
inductive Value where
  | str : String → Value
  | int : Int → Value
  | rat : ℚ → Value
deriving DecidableEq, Repr

/-- A Python dict with string keys, modelled as an insertion-ordered
association list with unique keys maintained by `Dict.set`. -/
abbrev Dict := List (String × Value)

/-- `d[k]` lookup returning the first binding of `k` (Python `dict.get(k)`). -/
def Dict.get? (d : Dict) (k : String) : Option Value :=
  match d with
  | [] => none
  | (k', v) :: rest => if k' = k then some v else Dict.get? rest k

/-- Python `dict.get(k, dflt)`. -/
def Dict.getD (d : Dict) (k : String) (dflt : Value) : Value :=
  (Dict.get? d k).getD dflt

/-- Python `d[k] = v`: replaces the binding in place if the key is present,
otherwise appends it at the end (insertion order semantics). -/
def Dict.set (d : Dict) (k : String) (v : Value) : Dict :=
  match d with
  | [] => [(k, v)]
  | (k', v') :: rest => if k' = k then (k, v) :: rest else (k', v') :: Dict.set rest k v

/-- Python `d.setdefault(k, v)`: inserts `k ↦ v` only when `k` is absent. -/
def Dict.setdefault (d : Dict) (k : String) (v : Value) : Dict :=
  match Dict.get? d k with
  | some _ => d
  | none => d ++ [(k, v)]

theorem Dict.get_set_same (d : Dict) (k : String) (v : Value) :
    Dict.get? (Dict.set d k v) k = some v := by
  induction d with
  | nil => simp [Dict.set, Dict.get?]
  | cons p rest ih =>
      obtain ⟨k', v'⟩ := p
      by_cases h : k' = k
      · simp [Dict.set, h, Dict.get?]
      · simp [Dict.set, h, Dict.get?, ih]

theorem Dict.get_set_other (d : Dict) (k k' : String) (v : Value) (h : k ≠ k') :
    Dict.get? (Dict.set d k v) k' = Dict.get? d k' := by
  induction d with
  | nil => simp [Dict.set, Dict.get?, h]
  | cons p rest ih =>
      obtain ⟨k₀, v₀⟩ := p
      by_cases h₀ : k₀ = k
      · subst h₀
        simp [Dict.set, Dict.get?, h]
      · simp [Dict.set, h₀, Dict.get?, ih]

theorem Dict.get_append_left (d₁ d₂ : Dict) (k : String) (h : (Dict.get? d₁ k).isSome) :
    Dict.get? (d₁ ++ d₂) k = Dict.get? d₁ k := by
  induction d₁ with
  | nil => simp [Dict.get?] at h
  | cons p rest ih =>
      obtain ⟨k', v'⟩ := p
      by_cases hk : k' = k
      · simp [Dict.get?, hk]
      · simp [Dict.get?, hk] at h ⊢
        exact ih h

theorem Dict.get_append_right (d₁ d₂ : Dict) (k : String) (h : Dict.get? d₁ k = none) :
    Dict.get? (d₁ ++ d₂) k = Dict.get? d₂ k := by
  induction d₁ with
  | nil => simp
  | cons p rest ih =>
      obtain ⟨k', v'⟩ := p
      by_cases hk : k' = k
      · simp [Dict.get?, hk] at h
      · simp [Dict.get?, hk] at h ⊢
        exact ih h

/-! ## Vector Index

Modelled from the spec (§4.2): the repository imports
`app.nlp.embedding.VectorIndex`, whose source file is not part of the
checked tree.  The index keeps an embedding list and a metadata list; the
external embedding model is passed explicitly as `embed`. -/

/-- Modelled from the spec: the in-memory state of `VectorIndex`
(`app/nlp/embedding.py`, absent from the tree): a fixed dimensionality,
the list of embedding vectors and the parallel list of metadata records. -/
structure VectorIndex where
  dim : Nat
  embeddings : List (List ℚ)
  metadatas : List Dict
deriving Repr, DecidableEq

/-- Errors of `add_texts` named by the spec's error taxonomy (§7). -/
inductive IndexError where
  | DimensionMismatch
  | LengthMismatch
deriving DecidableEq, Repr

/-- A fresh empty index of dimension `dim`. -/
def VectorIndex.empty (dim : Nat) : VectorIndex :=
  { dim := dim, embeddings := [], metadatas := [] }

/-- Modelled from the spec: `VectorIndex.add_texts` embeds each text with
the fixed-dimensionality embedding function, fails with `DimensionMismatch`
when an embedding has an unexpected size, and otherwise appends all vectors
and all metadata records; a failure commits nothing (§4.2, §7). -/
def VectorIndex.add_texts (embed : String → List ℚ) (idx : VectorIndex)
    (texts : List String) (metas : List Dict) : Except IndexError VectorIndex :=
  if texts.length ≠ metas.length then .error .LengthMismatch
  else
    let vecs := texts.map embed
    if vecs.all (fun v => v.length = idx.dim) then
      .ok { idx with
              embeddings := idx.embeddings ++ vecs,
              metadatas := idx.metadatas ++ metas }
    else .error .DimensionMismatch

/-- Inner product of two vectors, the similarity the spec allows (§4.2). -/
def dot (a b : List ℚ) : ℚ := (List.zipWith (fun x y => x * y) a b).sum

/-- One scored candidate during a search: similarity score, insertion
position in the index, and the record's metadata. -/
structure SearchEntry where
  score : ℚ
  pos : Nat
  meta : Dict
deriving Repr, DecidableEq

/-- Ranking order on candidates: higher similarity first, ties broken by
insertion position (earlier-inserted first). -/
def entryLE (a b : SearchEntry) : Prop :=
  b.score < a.score ∨ (a.score = b.score ∧ a.pos ≤ b.pos)

instance : DecidableRel entryLE := fun a b =>
  inferInstanceAs (Decidable (b.score < a.score ∨ (a.score = b.score ∧ a.pos ≤ b.pos)))

instance : IsTotal SearchEntry entryLE where
  total a b := by
    rcases lt_trichotomy a.score b.score with h | h | h
    · exact Or.inr (Or.inl h)
    · rcases Nat.le_total a.pos b.pos with hp | hp
      · exact Or.inl (Or.inr ⟨h, hp⟩)
      · exact Or.inr (Or.inr ⟨h.symm, hp⟩)
    · exact Or.inl (Or.inl h)

instance : IsTrans SearchEntry entryLE where
  trans a b c hab hbc := by
    rcases hab with h₁ | ⟨h₁, p₁⟩
    · rcases hbc with h₂ | ⟨h₂, p₂⟩
      · exact Or.inl (h₂.trans h₁)
      · exact Or.inl (h₂ ▸ h₁)
    · rcases hbc with h₂ | ⟨h₂, p₂⟩
      · exact Or.inl (by rw [h₁]; exact h₂)
      · exact Or.inr ⟨h₁.trans h₂, p₁.trans p₂⟩

/-- Modelled from the spec: the scored candidate list of `VectorIndex.search`
— every record paired with its similarity to the query and its insertion
position. -/
def VectorIndex.scored (embed : String → List ℚ) (idx : VectorIndex)
    (query : String) : List SearchEntry :=
  (idx.embeddings.zip idx.metadatas).enum.map
    (fun p => ⟨dot (embed query) p.2.1, p.1, p.2.2⟩)

/-- Modelled from the spec: `VectorIndex.search` ranks all records by
similarity (descending, ties by insertion order) and keeps the top `k`,
here with the insertion position still attached. -/
def VectorIndex.searchEntries (embed : String → List ℚ) (idx : VectorIndex)
    (query : String) (k : Nat) : List SearchEntry :=
  (List.insertionSort entryLE (idx.scored embed query)).take k

/-- Modelled from the spec: `VectorIndex.search` returns the top-`k`
records as `(score, metadata)` pairs (§4.2). -/
def VectorIndex.search (embed : String → List ℚ) (idx : VectorIndex)
    (query : String) (k : Nat) : List (ℚ × Dict) :=
  (idx.searchEntries embed query k).map (fun e => (e.score, e.meta))

/-- Modelled from the spec: `VectorIndex.is_empty`, an O(1) emptiness
check (§4.2). -/
def VectorIndex.is_empty (idx : VectorIndex) : Bool :=
  idx.metadatas.isEmpty

/-- Structural invariant of the index (spec §3): as many embedding
vectors as metadata records. -/
def VectorIndex.Inv (idx : VectorIndex) : Prop :=
  idx.embeddings.length = idx.metadatas.length

/-! ## Knowledge Store (`app/backend/knowledge.py`) -/

/-- The on-disk mirror of the index: absent, unreadable, or holding a
saved embedding matrix and metadata list. -/
inductive DiskState where
  | missing
  | corrupt
  | saved (embeddings : List (List ℚ)) (metadatas : List Dict)
deriving Repr, DecidableEq

/-- Modelled from the spec: `VectorIndex.load()` deserializes the stored
matrix and metadata; a missing store yields the empty state, a corrupt
store is a load failure that raises (§4.2), which the caller
`KnowledgeStore._ensure_index` catches. -/
def loadData (d : DiskState) : Except String (List (List ℚ) × List Dict) :=
  match d with
  | .missing => .ok ([], [])
  | .corrupt => .error "corrupt index store"
  | .saved es ms => .ok (es, ms)

/-- Modelled from the spec: `VectorIndex.save()` serializes the full
embedding matrix and metadata list (§4.2). -/
def saveData (idx : VectorIndex) : DiskState :=
  .saved idx.embeddings idx.metadatas

/-- The state of one `KnowledgeStore`: configured dimension, the lazily
constructed in-memory index (`self._index`, `None` until first use) and
the persistent storage directory's content. -/
structure StoreState where
  dim : Nat
  index : Option VectorIndex
  disk : DiskState
deriving Repr, DecidableEq

/-- `KnowledgeStore._ensure_index`: constructs a fresh index, tries to
load persisted state, and on any load failure keeps the freshly
constructed empty index (the exception is logged and swallowed). -/
def ensureIndex (st : StoreState) : VectorIndex :=
  match st.index with
  | some idx => idx
  | none =>
      match loadData st.disk with
      | .ok (es, ms) => { dim := st.dim, embeddings := es, metadatas := ms }
      | .error _ => VectorIndex.empty st.dim

/-- The store state after `_ensure_index` cached the index. -/
def cacheIndex (st : StoreState) : StoreState :=
  { st with index := some (ensureIndex st) }

/-- A chunk as produced by the Chunker (`build_chunks`): document id,
text, and positional metadata. -/
structure Chunk where
  doc_id : String
  text : String
  meta : Dict
deriving Repr, DecidableEq

/-- The metadata record `KnowledgeStore.add_file` builds for the chunk at
position `i` (0-based): a copy of the chunk's metadata with `doc_id` and
`chunk_index = i + 1` assigned. -/
def buildMeta (c : Chunk) (i : Nat) : Dict :=
  Dict.set (Dict.set c.meta "doc_id" (.str c.doc_id)) "chunk_index" (.int (i + 1))

/-- The full metadata list `add_file` builds from the chunk list. -/
def buildMetas (chunks : List Chunk) : List Dict :=
  chunks.enum.map (fun p => buildMeta p.2 p.1)

/-- `KnowledgeStore.add_file`: runs the Chunker (its output is the
`chunks` argument), returns 0 untouched on an empty chunk list, otherwise
builds texts and metadata, ensures the index, adds all chunks and saves.
A raised `IndexError` propagates while the store keeps the unmodified
ensured index and the unmodified disk state. -/
def add_file (embed : String → List ℚ) (st : StoreState) (chunks : List Chunk) :
    StoreState × Except IndexError Nat :=
  if chunks.isEmpty then (st, .ok 0)
  else
    let texts := chunks.map Chunk.text
    let metas := buildMetas chunks
    let idx := ensureIndex st
    match VectorIndex.add_texts embed idx texts metas with
    | .ok idx' => ({ st with index := some idx', disk := saveData idx' }, .ok texts.length)
    | .error e => (cacheIndex st, .error e)

/-- The enrichment `KnowledgeStore.search` applies to one raw
`(score, metadata)` pair: copy the metadata, default a `text` field from
the stored text, attach the score. -/
def enrichHit (score : ℚ) (meta : Dict) : Dict :=
  Dict.set (Dict.setdefault meta "text" (Dict.getD meta "text" (.str ""))) "score" (.rat score)

/-- `KnowledgeStore.search`: ensures the index, delegates to
`VectorIndex.search` and enriches every raw pair into a hit dict. -/
def KnowledgeStore.search (embed : String → List ℚ) (st : StoreState)
    (query : String) (k : Nat) : StoreState × List Dict :=
  let idx := ensureIndex st
  let raw := idx.search embed query k
  (cacheIndex st, raw.map (fun p => enrichHit p.1 p.2))

/-- `KnowledgeStore.is_empty`: ensures the index and asks it. -/
def KnowledgeStore.is_empty (st : StoreState) : Bool :=
  (ensureIndex st).is_empty

/-! ## Answer Synthesizer (`app/agent/qa_agent.py`, modelled from the spec §4.4) -/

/-- The text of a hit dict, as the API reads it (`hit["text"]`). -/
def hitText (h : Dict) : String :=
  match Dict.get? h "text" with
  | some (.str s) => s
  | _ => ""

/-- The result of `answer_query`: answer string and mode tag. -/
structure QAResult where
  answer : String
  mode : String
deriving Repr, DecidableEq

/-- Modelled from the spec: the deterministic extractive summary of §4.4,
built purely from the hit texts — a fixed preamble followed by the leading
(top-3) hit texts, which keeps the answer non-empty as §8 requires. -/
def summaryOfTexts (texts : List String) : String :=
  "Ringkasan dari dokumen terkait:\n" ++ String.intercalate "\n\n" (texts.take 3)

/-- The extractive answer for a hit list: the summary of its texts. -/
def extractiveAnswer (hits : List Dict) : String :=
  summaryOfTexts (hits.map hitText)

/-- Modelled from the spec: `answer_query(question, hits, use_llm)`
(`app/agent/qa_agent.py`, absent from the tree), §4.4.  The external
language-model call is the `llmOutcome` argument: `some ans` when it
succeeds, `none` when it fails or is unavailable.  Empty hits give the
fixed no-results message; a failed LLM call degrades to the extractive
summary with mode `llm_fallback` and never surfaces the failure. -/
def answer_query (question : String) (hits : List Dict) (use_llm : Bool)
    (llmOutcome : Option String) : QAResult :=
  if hits.isEmpty then ⟨"No results found.", "empty"⟩
  else if use_llm then
    match llmOutcome with
    | some ans => ⟨ans, "llm"⟩
    | none => ⟨extractiveAnswer hits, "llm_fallback"⟩
  else ⟨extractiveAnswer hits, "extractive"⟩

/-! ## Topic Classifier (`app/models/classifier.py`, modelled from the spec §4.5) -/

/-- Modelled from the spec: a persisted classifier model, trained on
weak-labeled `(texts, labels)` data (§3, §4.5); parameters are determined
by the training data. -/
structure ClsModel where
  texts : List String
  labels : List String
deriving Repr, DecidableEq

/-- Modelled from the spec: `fit_and_save(texts, labels)` trains a model
on the given data and persists it (§4.5). -/
def fit_and_save (texts labels : List String) : ClsModel :=
  ⟨texts, labels⟩

/-- A prediction: best label and its confidence. -/
structure Pred where
  label : String
  proba : ℚ
deriving Repr, DecidableEq

/-- The classifier bootstrap executed by `ask_ai` (`app/api.py`): load the
model; when none exists, synthesize a label for hit `i` from the fixed
vocabulary at index `i mod |vocabulary|`, train and persist on the hit
texts, reload; then predict on the concatenation of the first three hit
texts.  `LABELS` is the fixed vocabulary and `predictFn` the spec-level
`predict` (§4.5), both from the absent `app/models/classifier.py`. -/
def classifierStep (LABELS : List String) (predictFn : String → ClsModel → Pred)
    (persisted : Option ClsModel) (hits : List Dict) :
    Option ClsModel × Option Pred :=
  let afterFit : Option ClsModel :=
    match persisted with
    | some m => some m
    | none =>
        let texts := hits.map hitText
        if texts.isEmpty then none
        else
          let labels := (List.range texts.length).map
            (fun i => LABELS.getD (i % LABELS.length) "")
          some (fit_and_save texts labels)
  match afterFit with
  | some m =>
      (some m, some (predictFn (String.intercalate " " ((hits.take 3).map hitText)) m))
  | none => (persisted, none)

/-! ## The `/chat/ask` handler (`app/api.py`, `ask_ai`) -/

/-- One context hit of the chat response, as `ask_ai` builds it from a hit
dict (the Python fields `section` and `section_chunk` are `sectionNo` and
`sectionChunk` here). -/
structure ContextHit where
  doc_id : Option Value
  source : Option Value
  text : String
  score : Option Value
  page : Option Value
  sectionNo : Option Value
  sectionChunk : Option Value
deriving Repr, DecidableEq

/-- The context payload entry for one hit (`ask_ai`'s comprehension). -/
def toContextHit (h : Dict) : ContextHit :=
  { doc_id := Dict.get? h "doc_id"
    source := Dict.get? h "source"
    text := hitText h
    score := Dict.get? h "score"
    page := Dict.get? h "page"
    sectionNo := Dict.get? h "section"
    sectionChunk := Dict.get? h "section_chunk" }

/-- The body of a successful chat response. -/
structure ChatResponse where
  answer : String
  mode : String
  context : List ContextHit
  classification : Option Pred
deriving Repr, DecidableEq

/-- `ask_ai` (`app/api.py`): reject with HTTP 400 when the knowledge base
is empty, search, short-circuit to mode `empty` on no hits, otherwise
synthesize the answer and run the classifier bootstrap.  The result
carries the updated store state and persisted classifier model. -/
def ask_ai (embed : String → List ℚ) (LABELS : List String)
    (predictFn : String → ClsModel → Pred) (llmOutcome : Option String)
    (st : StoreState) (persisted : Option ClsModel)
    (question : String) (top_k : Nat) (use_llm : Bool) :
    Except Nat (StoreState × Option ClsModel × ChatResponse) :=
  if KnowledgeStore.is_empty st then .error 400
  else
    let searched := KnowledgeStore.search embed st question top_k
    let hits := searched.2
    if hits.isEmpty then
      .ok (searched.1, persisted, ⟨"No results found.", "empty", [], none⟩)
    else
      let qa := answer_query question hits use_llm llmOutcome
      let stepped := classifierStep LABELS predictFn persisted hits
      .ok (searched.1, stepped.1,
        ⟨qa.answer, qa.mode, hits.map toContextHit, stepped.2⟩)

/-! ## Helper lemmas -/

theorem Dict.get_setdefault_same (d : Dict) (k : String) (v : Value) :
    Dict.get? (Dict.setdefault d k v) k = some (Dict.getD d k v) := by
  unfold Dict.setdefault Dict.getD
  cases h : Dict.get? d k with
  | some w => simp [h]
  | none =>
      simp only [h]
      rw [Dict.get_append_right d _ k h]
      simp [Dict.get?]

theorem Dict.get_setdefault_other (d : Dict) (k k' : String) (v : Value) (h : k ≠ k') :
    Dict.get? (Dict.setdefault d k v) k' = Dict.get? d k' := by
  unfold Dict.setdefault
  cases hd : Dict.get? d k with
  | some w => simp
  | none =>
      simp only
      cases hk' : Dict.get? d k' with
      | some w =>
          rw [Dict.get_append_left d _ k' (by simp [hk'])]
          exact hk'
      | none =>
          rw [Dict.get_append_right d _ k' hk']
          simp [Dict.get?, h, hk']

theorem Dict.getD_getD (d : Dict) (k : String) (v : Value) :
    Dict.getD d k (Dict.getD d k v) = Dict.getD d k v := by
  unfold Dict.getD
  cases Dict.get? d k <;> simp

theorem buildMetas_length (chunks : List Chunk) :
    (buildMetas chunks).length = chunks.length := by
  simp [buildMetas]

/-! ## Claims -/

/-- C1: the Vector Index always holds exactly as many embedding vectors as
metadata records, and a failing `add_texts` (e.g. on `DimensionMismatch`)
never commits a partial write: a successful call appends the embeddings
and the metadata together, and a call with a wrongly sized embedding
returns `DimensionMismatch` without producing any new index state. -/
theorem addTexts_preserves_invariant (embed : String → List ℚ) (idx : VectorIndex)
    (texts : List String) (metas : List Dict) (hinv : idx.Inv) :
    (∀ idx', VectorIndex.add_texts embed idx texts metas = .ok idx' →
        idx'.Inv ∧
        idx'.embeddings = idx.embeddings ++ texts.map embed ∧
        idx'.metadatas = idx.metadatas ++ metas) ∧
    (texts.length = metas.length →
      (∃ t ∈ texts, (embed t).length ≠ idx.dim) →
      VectorIndex.add_texts embed idx texts metas = .error .DimensionMismatch) := by
  constructor
  · intro idx' hok
    unfold VectorIndex.add_texts at hok
    dsimp only at hok
    split at hok
    · exact absurd hok (by simp)
    · rename_i hlen
      split at hok
      · cases hok
        refine ⟨?_, rfl, rfl⟩
        unfold VectorIndex.Inv at hinv ⊢
        simp only [List.length_append, List.length_map, hinv]
        omega
      · exact absurd hok (by simp)
  · intro hlen ⟨t, ht, hdim⟩
    unfold VectorIndex.add_texts
    rw [if_neg (by omega)]
    simp only
    rw [if_neg]
    simp only [List.all_eq_true, List.mem_map, decide_eq_true_eq, not_forall]
    exact ⟨embed t, ⟨⟨t, ht, rfl⟩, hdim⟩⟩

/-- Witness for C1 at a concrete dimension-2 index. -/
theorem addTexts_preserves_invariant_witness :
    (∀ idx', VectorIndex.add_texts (fun _ => [(1 : ℚ), 0]) ⟨2, [], []⟩ ["a"] [[]] = .ok idx' →
        idx'.Inv ∧
        idx'.embeddings = [] ++ (["a"].map (fun _ => [(1 : ℚ), 0])) ∧
        idx'.metadatas = [] ++ [[]]) ∧
    ((["a"] : List String).length = ([[]] : List Dict).length →
      (∃ t ∈ ["a"], ((fun _ => [(1 : ℚ), 0]) t).length ≠ 2) →
      VectorIndex.add_texts (fun _ => [(1 : ℚ), 0]) ⟨2, [], []⟩ ["a"] [[]] =
        .error .DimensionMismatch) :=
  addTexts_preserves_invariant (fun _ => [(1 : ℚ), 0]) ⟨2, [], []⟩ ["a"] [[]] rfl

/-- C2: `add_file` returns exactly the number of chunks the Chunker
produced; on an empty chunk list it returns 0 and leaves the store —
in-memory index and persisted disk state alike — unchanged. -/
theorem add_file_returns_chunk_count (embed : String → List ℚ) (st : StoreState)
    (chunks : List Chunk) :
    (∀ st' n, add_file embed st chunks = (st', .ok n) → n = chunks.length) ∧
    (chunks = [] → add_file embed st chunks = (st, .ok 0)) := by
  constructor
  · intro st' n h
    unfold add_file at h
    dsimp only at h
    split at h
    · rename_i hemp
      cases h
      simp [List.isEmpty_iff] at hemp
      simp [hemp]
    · split at h
      · cases h
        simp
      · cases h
  · intro h
    subst h
    rfl

/-- Witness for C2 on the two-chunk scenario of §8. -/
theorem add_file_returns_chunk_count_witness :
    (∀ st' n,
        add_file (fun _ => [(1 : ℚ)]) ⟨1, none, .missing⟩
          [⟨"perda-1", "Pasal 1: a", []⟩, ⟨"perda-1", "Pasal 2: b", []⟩] = (st', .ok n) →
        n = 2) ∧
    (([⟨"perda-1", "Pasal 1: a", []⟩, ⟨"perda-1", "Pasal 2: b", []⟩] : List Chunk) = [] →
      add_file (fun _ => [(1 : ℚ)]) ⟨1, none, .missing⟩
          [⟨"perda-1", "Pasal 1: a", []⟩, ⟨"perda-1", "Pasal 2: b", []⟩] =
        (⟨1, none, .missing⟩, .ok 0)) :=
  add_file_returns_chunk_count (fun _ => [(1 : ℚ)]) ⟨1, none, .missing⟩
    [⟨"perda-1", "Pasal 1: a", []⟩, ⟨"perda-1", "Pasal 2: b", []⟩]

/-- C3: for a file yielding `n > 0` chunks, a successful `add_file`
appends exactly the built metadata records to the index, and the record at
position `i` (0-based) carries `chunk_index = i + 1` — i.e. the values
`1, 2, …, n` in insertion order — together with the document's `doc_id`. -/
theorem add_file_metadata_fields (embed : String → List ℚ) (st : StoreState)
    (chunks : List Chunk) (hne : chunks ≠ []) :
    (∀ st' n, add_file embed st chunks = (st', .ok n) →
        ∃ idx', st'.index = some idx' ∧
          idx'.metadatas = (ensureIndex st).metadatas ++ buildMetas chunks) ∧
    (∀ i d, (buildMetas chunks).get? i = some d →
        Dict.get? d "chunk_index" = some (.int (i + 1)) ∧
        ∃ c, chunks.get? i = some c ∧ Dict.get? d "doc_id" = some (.str c.doc_id)) := by
  constructor
  · intro st' n h
    unfold add_file at h
    dsimp only at h
    split at h
    · rename_i hemp
      exact absurd (List.isEmpty_iff.mp hemp) hne
    · split at h
      · rename_i idx' hok
        cases h
        refine ⟨idx', rfl, ?_⟩
        unfold VectorIndex.add_texts at hok
        dsimp only at hok
        split at hok
        · exact absurd hok (by simp)
        · split at hok
          · cases hok
            rfl
          · exact absurd hok (by simp)
      · cases h
  · intro i d h
    have hi : i < chunks.length := by
      by_contra hlt
      push_neg at hlt
      rw [List.get?_eq_none.mpr (by simpa [buildMetas_length] using hlt)] at h
      cases h
    have hbm : (buildMetas chunks).get? i =
        some (buildMeta (chunks.get ⟨i, hi⟩) i) := by
      unfold buildMetas
      rw [List.get?_eq_get (by simpa [buildMetas_length, buildMetas] using hi)]
      congr 1
      rw [List.get_map]
      congr 1
      · simp [List.get_enum]
      · simp [List.get_enum]
    rw [hbm] at h
    cases h
    refine ⟨?_, chunks.get ⟨i, hi⟩, List.get?_eq_get hi, ?_⟩
    · unfold buildMeta
      exact Dict.get_set_same _ _ _
    · unfold buildMeta
      rw [Dict.get_set_other _ _ _ _ (by decide)]
      exact Dict.get_set_same _ _ _

/-- Witness for C3 on the two-chunk scenario of §8. -/
theorem add_file_metadata_fields_witness :
    (∀ st' n,
        add_file (fun _ => [(1 : ℚ)]) ⟨1, none, .missing⟩
          [⟨"perda-1", "Pasal 1: a", []⟩, ⟨"perda-1", "Pasal 2: b", []⟩] = (st', .ok n) →
        ∃ idx', st'.index = some idx' ∧
          idx'.metadatas =
            (ensureIndex ⟨1, none, .missing⟩).metadatas ++
              buildMetas [⟨"perda-1", "Pasal 1: a", []⟩, ⟨"perda-1", "Pasal 2: b", []⟩]) ∧
    (∀ i d,
        (buildMetas [⟨"perda-1", "Pasal 1: a", []⟩, ⟨"perda-1", "Pasal 2: b", []⟩]).get? i =
          some d →
        Dict.get? d "chunk_index" = some (.int (i + 1)) ∧
        ∃ c, ([⟨"perda-1", "Pasal 1: a", []⟩, ⟨"perda-1", "Pasal 2: b", []⟩] :
            List Chunk).get? i = some c ∧
          Dict.get? d "doc_id" = some (.str c.doc_id)) :=
  add_file_metadata_fields (fun _ => [(1 : ℚ)]) ⟨1, none, .missing⟩
    [⟨"perda-1", "Pasal 1: a", []⟩, ⟨"perda-1", "Pasal 2: b", []⟩] (by decide)

/-- C4: `search` returns `min k n` results for an index with `n` records —
at most `k`, never more than the record count, all records when fewer than
`k` exist, none on an empty index — ranked by descending similarity with
ties broken by insertion position (earlier first), and the Knowledge Store
level search keeps exactly one hit per raw result. -/
theorem search_count_and_ranking (embed : String → List ℚ) (idx : VectorIndex)
    (q : String) (k : Nat) (hinv : idx.Inv) :
    (idx.search embed q k).length = min k idx.metadatas.length ∧
    List.Sorted entryLE (idx.searchEntries embed q k) ∧
    idx.search embed q k =
      (idx.searchEntries embed q k).map (fun e => (e.score, e.meta)) ∧
    (∀ e ∈ idx.searchEntries embed q k,
        ∃ v m, idx.embeddings.get? e.pos = some v ∧
          idx.metadatas.get? e.pos = some m ∧
          e.score = dot (embed q) v ∧ e.meta = m) ∧
    (∀ st, ensureIndex st = idx →
        ((KnowledgeStore.search embed st q k).2).length = min k idx.metadatas.length) := by
  have hscored : (idx.scored embed q).length = idx.metadatas.length := by
    have hinv' : idx.embeddings.length = idx.metadatas.length := hinv
    simp only [VectorIndex.scored, List.length_map, List.enum_length, List.length_zip]
    omega
  have hlen : (idx.searchEntries embed q k).length = min k idx.metadatas.length := by
    simp [VectorIndex.searchEntries, List.length_insertionSort, hscored]
  have hproj : idx.search embed q k =
      (idx.searchEntries embed q k).map (fun e => (e.score, e.meta)) := rfl
  refine ⟨?_, ?_, hproj, ?_, ?_⟩
  · rw [hproj, List.length_map, hlen]
  · exact List.Pairwise.sublist (List.take_sublist _ _)
      (List.sorted_insertionSort entryLE _)
  · intro e he
    have h1 : e ∈ List.insertionSort entryLE (idx.scored embed q) :=
      (List.take_sublist _ _).subset he
    have h2 : e ∈ idx.scored embed q :=
      (List.perm_insertionSort entryLE _).subset h1
    unfold VectorIndex.scored at h2
    rw [List.mem_map] at h2
    obtain ⟨⟨i, ab⟩, hp, hep⟩ := h2
    rw [List.mk_mem_enum_iff_getElem?, ← List.get?_eq_getElem?,
      List.get?_zip_eq_some] at hp
    subst hep
    exact ⟨ab.1, ab.2, hp.1, hp.2, rfl, rfl⟩
  · intro st hst
    simp only [KnowledgeStore.search, hst, List.length_map]
    rw [hproj, List.length_map, hlen]

/-- Witness for C4 on a two-record dimension-1 index with `k = 5`. -/
theorem search_count_and_ranking_witness :
    (VectorIndex.search (fun _ => [(1 : ℚ)]) ⟨1, [[(2 : ℚ)], [(3 : ℚ)]], [[], []]⟩ "q" 5).length =
        min 5 ([[], []] : List Dict).length ∧
      List.Sorted entryLE
        (VectorIndex.searchEntries (fun _ => [(1 : ℚ)])
          ⟨1, [[(2 : ℚ)], [(3 : ℚ)]], [[], []]⟩ "q" 5) ∧
      VectorIndex.search (fun _ => [(1 : ℚ)]) ⟨1, [[(2 : ℚ)], [(3 : ℚ)]], [[], []]⟩ "q" 5 =
        (VectorIndex.searchEntries (fun _ => [(1 : ℚ)])
            ⟨1, [[(2 : ℚ)], [(3 : ℚ)]], [[], []]⟩ "q" 5).map (fun e => (e.score, e.meta)) ∧
      (∀ e ∈ VectorIndex.searchEntries (fun _ => [(1 : ℚ)])
            ⟨1, [[(2 : ℚ)], [(3 : ℚ)]], [[], []]⟩ "q" 5,
          ∃ v m, ([[(2 : ℚ)], [(3 : ℚ)]] : List (List ℚ)).get? e.pos = some v ∧
            ([[], []] : List Dict).get? e.pos = some m ∧
            e.score = dot ((fun _ => [(1 : ℚ)]) "q") v ∧ e.meta = m) ∧
      (∀ st, ensureIndex st = ⟨1, [[(2 : ℚ)], [(3 : ℚ)]], [[], []]⟩ →
          ((KnowledgeStore.search (fun _ => [(1 : ℚ)]) st "q" 5).2).length =
            min 5 ([[], []] : List Dict).length) :=
  search_count_and_ranking (fun _ => [(1 : ℚ)])
    ⟨1, [[(2 : ℚ)], [(3 : ℚ)]], [[], []]⟩ "q" 5 rfl

/-- C5: every hit built by `KnowledgeStore.search` carries a `text` field
(defaulting to the text stored in the record's metadata, the empty string
when none is stored) and a `score` field equal to the raw similarity score
of the Vector Index, while every other metadata key passes through
unchanged; and the hit list is exactly the raw result list enriched this
way. -/
theorem search_hits_enriched (score : ℚ) (meta : Dict) :
    Dict.get? (enrichHit score meta) "score" = some (.rat score) ∧
    Dict.get? (enrichHit score meta) "text" = some (Dict.getD meta "text" (.str "")) ∧
    (∀ key, key ≠ "text" → key ≠ "score" →
        Dict.get? (enrichHit score meta) key = Dict.get? meta key) ∧
    (∀ embed st q k, (KnowledgeStore.search embed st q k).2 =
        ((ensureIndex st).search embed q k).map (fun p => enrichHit p.1 p.2)) := by
  refine ⟨?_, ?_, ?_, fun _ _ _ _ => rfl⟩
  · exact Dict.get_set_same _ _ _
  · unfold enrichHit
    rw [Dict.get_set_other _ _ _ _ (by decide)]
    rw [Dict.get_setdefault_same, Dict.getD_getD]
  · intro key hkt hks
    unfold enrichHit
    rw [Dict.get_set_other _ _ _ _ (fun h => hks h.symm)]
    exact Dict.get_setdefault_other _ _ _ _ (fun h => hkt h.symm)

/-- Witness for C5 on a concrete metadata record without a stored text. -/
theorem search_hits_enriched_witness :
    Dict.get? (enrichHit (3 : ℚ) [("doc_id", .str "perda-1")]) "score" =
        some (.rat (3 : ℚ)) ∧
    Dict.get? (enrichHit (3 : ℚ) [("doc_id", .str "perda-1")]) "text" =
        some (Dict.getD [("doc_id", .str "perda-1")] "text" (.str "")) ∧
    (∀ key, key ≠ "text" → key ≠ "score" →
        Dict.get? (enrichHit (3 : ℚ) [("doc_id", .str "perda-1")]) key =
          Dict.get? [("doc_id", .str "perda-1")] key) ∧
    (∀ embed st q k, (KnowledgeStore.search embed st q k).2 =
        ((ensureIndex st).search embed q k).map (fun p => enrichHit p.1 p.2)) :=
  search_hits_enriched (3 : ℚ) [("doc_id", .str "perda-1")]

/-- C6: `answer_query` on an empty hit sequence returns the fixed
no-results message with mode `empty`, whatever the question, the `use_llm`
flag and the state of the external language model. -/
theorem answer_query_empty_hits (q : String) (use_llm : Bool) (llmOutcome : Option String) :
    answer_query q [] use_llm llmOutcome = ⟨"No results found.", "empty"⟩ := rfl

/-- C7: with a non-empty hit sequence, `use_llm` requested and the
external language-model call failed (`llmOutcome = none`), `answer_query`
returns mode `llm_fallback` and a non-empty deterministic answer that is a
function of the hit texts alone — the upstream failure never surfaces. -/
theorem answer_query_llm_fallback (q : String) (hits : List Dict) (hne : hits ≠ []) :
    answer_query q hits true none =
      ⟨summaryOfTexts (hits.map hitText), "llm_fallback"⟩ ∧
    (answer_query q hits true none).answer ≠ "" := by
  have hres : answer_query q hits true none =
      ⟨summaryOfTexts (hits.map hitText), "llm_fallback"⟩ := by
    unfold answer_query
    rw [if_neg (by simpa [List.isEmpty_iff] using hne)]
    rfl
  refine ⟨hres, ?_⟩
  rw [hres]
  intro hcontra
  have hlen := congrArg String.length hcontra
  rw [summaryOfTexts, String.length_append] at hlen
  rw [show ("" : String).length = 0 from rfl] at hlen
  have hpos : 0 < "Ringkasan dari dokumen terkait:\n".length := by decide
  omega

/-- Witness for C7 on a single concrete hit. -/
theorem answer_query_llm_fallback_witness :
    answer_query "q" [[("text", .str "Pasal 1")]] true none =
      ⟨summaryOfTexts ([[("text", .str "Pasal 1")]].map hitText), "llm_fallback"⟩ ∧
    (answer_query "q" [[("text", .str "Pasal 1")]] true none).answer ≠ "" :=
  answer_query_llm_fallback "q" [[("text", .str "Pasal 1")]] (by decide)

theorem ensureIndex_cacheIndex (st : StoreState) :
    ensureIndex (cacheIndex st) = ensureIndex st := rfl

/-- C8: a missing or corrupt persisted store never propagates a load
failure: the load error exists (`loadData` fails on a corrupt store) but
`_ensure_index` recovers to the valid empty index, so `is_empty` reports
true, `search` returns no hits, and `add_file` behaves exactly as on a
store that explicitly holds the valid empty index. -/
theorem load_failure_recovered (embed : String → List ℚ) (st : StoreState)
    (q : String) (k : Nat) (chunks : List Chunk)
    (hnone : st.index = none) (hbad : st.disk = .corrupt ∨ st.disk = .missing) :
    (st.disk = .corrupt → loadData st.disk = .error "corrupt index store") ∧
    ensureIndex st = VectorIndex.empty st.dim ∧
    (ensureIndex st).Inv ∧
    KnowledgeStore.is_empty st = true ∧
    (KnowledgeStore.search embed st q k).2 = [] ∧
    (add_file embed st chunks).2 = (add_file embed (cacheIndex st) chunks).2 ∧
    ensureIndex (add_file embed st chunks).1 =
      ensureIndex (add_file embed (cacheIndex st) chunks).1 := by
  have hemp : ensureIndex st = VectorIndex.empty st.dim := by
    rcases hbad with h | h <;>
      simp [ensureIndex, hnone, h, loadData, VectorIndex.empty]
  have hsearch : (KnowledgeStore.search embed st q k).2 = [] := by
    simp [KnowledgeStore.search, hemp, VectorIndex.search, VectorIndex.searchEntries,
      VectorIndex.scored, VectorIndex.empty]
  refine ⟨fun h => by rw [h]; rfl, hemp, ?_, ?_, hsearch, ?_, ?_⟩
  · rw [hemp]; rfl
  · simp [KnowledgeStore.is_empty, hemp, VectorIndex.empty, VectorIndex.is_empty]
  · unfold add_file
    by_cases hch : chunks.isEmpty
    · simp [hch]
    · simp only [hch, if_false, Bool.false_eq_true, ensureIndex_cacheIndex]
      cases VectorIndex.add_texts embed (ensureIndex st) (chunks.map Chunk.text)
        (buildMetas chunks) <;> rfl
  · unfold add_file
    by_cases hch : chunks.isEmpty
    · simp [hch, ensureIndex_cacheIndex]
    · simp only [hch, if_false, Bool.false_eq_true, ensureIndex_cacheIndex]
      cases VectorIndex.add_texts embed (ensureIndex st) (chunks.map Chunk.text)
        (buildMetas chunks) <;> rfl

/-- Witness for C8 on a dimension-384 store whose disk is corrupt. -/
theorem load_failure_recovered_witness :
    ((DiskState.corrupt : DiskState) = .corrupt →
        loadData DiskState.corrupt = .error "corrupt index store") ∧
    ensureIndex ⟨384, none, .corrupt⟩ = VectorIndex.empty 384 ∧
    (ensureIndex ⟨384, none, .corrupt⟩).Inv ∧
    KnowledgeStore.is_empty ⟨384, none, .corrupt⟩ = true ∧
    (KnowledgeStore.search (fun _ => [(1 : ℚ)]) ⟨384, none, .corrupt⟩ "q" 5).2 = [] ∧
    (add_file (fun _ => [(1 : ℚ)]) ⟨384, none, .corrupt⟩ []).2 =
      (add_file (fun _ => [(1 : ℚ)]) (cacheIndex ⟨384, none, .corrupt⟩) []).2 ∧
    ensureIndex (add_file (fun _ => [(1 : ℚ)]) ⟨384, none, .corrupt⟩ []).1 =
      ensureIndex (add_file (fun _ => [(1 : ℚ)]) (cacheIndex ⟨384, none, .corrupt⟩) []).1 :=
  load_failure_recovered (fun _ => [(1 : ℚ)]) ⟨384, none, .corrupt⟩ "q" 5 []
    rfl (Or.inl rfl)

/-- C9: when no persisted model exists and the hit set is non-empty, the
bootstrap in `ask_ai` synthesizes for position `i` the label at index
`i mod |LABELS|` of the fixed vocabulary, trains and persists a model on
the hit texts with those labels, reloads it, and applies `predict`
exactly to the space-joined concatenation of the first three hit texts. -/
theorem classifier_bootstrap_step (LABELS : List String)
    (predictFn : String → ClsModel → Pred) (hits : List Dict)
    (hL : LABELS ≠ []) (hne : hits ≠ []) :
    classifierStep LABELS predictFn none hits =
      (some (fit_and_save (hits.map hitText)
          ((List.range (hits.map hitText).length).map
            (fun i => LABELS.getD (i % LABELS.length) ""))),
       some (predictFn (String.intercalate " " ((hits.take 3).map hitText))
          (fit_and_save (hits.map hitText)
            ((List.range (hits.map hitText).length).map
              (fun i => LABELS.getD (i % LABELS.length) ""))))) ∧
    (∀ i, i < hits.length →
        ((List.range (hits.map hitText).length).map
            (fun i => LABELS.getD (i % LABELS.length) "")).get? i =
          LABELS.get? (i % LABELS.length)) := by
  constructor
  · unfold classifierStep
    rw [if_neg (by simpa [List.isEmpty_iff] using hne)]
  · intro i hi
    have hmod : i % LABELS.length < LABELS.length :=
      Nat.mod_lt _ (List.length_pos.mpr hL)
    rw [List.get?_map, List.get?_range (by simpa using hi)]
    rw [List.get?_eq_get hmod]
    simp [List.getD, List.getElem?_eq_getElem hmod]

/-- Witness for C9 with a two-label vocabulary and one concrete hit. -/
theorem classifier_bootstrap_step_witness :
    classifierStep ["peraturan", "kebijakan"] (fun _ m => ⟨m.labels.headI, 1⟩)
        none [[("text", .str "Pasal 1")]] =
      (some (fit_and_save ([[("text", .str "Pasal 1")]].map hitText)
          ((List.range ([[("text", .str "Pasal 1")]].map hitText).length).map
            (fun i => ["peraturan", "kebijakan"].getD
              (i % (["peraturan", "kebijakan"] : List String).length) ""))),
       some ((fun _ m => (⟨m.labels.headI, 1⟩ : Pred))
          (String.intercalate " " (([[("text", .str "Pasal 1")]].take 3).map hitText))
          (fit_and_save ([[("text", .str "Pasal 1")]].map hitText)
            ((List.range ([[("text", .str "Pasal 1")]].map hitText).length).map
              (fun i => ["peraturan", "kebijakan"].getD
                (i % (["peraturan", "kebijakan"] : List String).length) ""))))) ∧
    (∀ i, i < ([[("text", .str "Pasal 1")]] : List Dict).length →
        ((List.range ([[("text", .str "Pasal 1")]].map hitText).length).map
            (fun i => ["peraturan", "kebijakan"].getD
              (i % (["peraturan", "kebijakan"] : List String).length) "")).get? i =
          ["peraturan", "kebijakan"].get?
            (i % (["peraturan", "kebijakan"] : List String).length)) :=
  classifier_bootstrap_step ["peraturan", "kebijakan"] (fun _ m => ⟨m.labels.headI, 1⟩)
    [[("text", .str "Pasal 1")]] (by decide) (by decide)

/-- C10: `ask_ai` rejects an empty knowledge base with HTTP 400 before
searching, every successful response implies the index was non-empty, and
a response with mode `empty` can only come from a search on that
non-empty index that returned no hits. -/
theorem ask_ai_empty_gate (embed : String → List ℚ) (LABELS : List String)
    (predictFn : String → ClsModel → Pred) (llmOutcome : Option String)
    (st : StoreState) (persisted : Option ClsModel)
    (q : String) (k : Nat) (use_llm : Bool) :
    (KnowledgeStore.is_empty st = true →
      ask_ai embed LABELS predictFn llmOutcome st persisted q k use_llm = .error 400) ∧
    (∀ st' p' r,
        ask_ai embed LABELS predictFn llmOutcome st persisted q k use_llm =
          .ok (st', p', r) →
        KnowledgeStore.is_empty st = false) ∧
    (∀ st' p' r,
        ask_ai embed LABELS predictFn llmOutcome st persisted q k use_llm =
          .ok (st', p', r) →
        r.mode = "empty" →
        KnowledgeStore.is_empty st = false ∧
        (KnowledgeStore.search embed st q k).2 = []) := by
  have hfalse : ∀ st' p' r,
      ask_ai embed LABELS predictFn llmOutcome st persisted q k use_llm =
        .ok (st', p', r) → KnowledgeStore.is_empty st = false := by
    intro st' p' r h
    cases hie : KnowledgeStore.is_empty st
    · rfl
    · unfold ask_ai at h
      rw [if_pos hie] at h
      cases h
  refine ⟨?_, hfalse, ?_⟩
  · intro h
    unfold ask_ai
    rw [if_pos h]
  · intro st' p' r h hm
    have hie := hfalse st' p' r h
    refine ⟨hie, ?_⟩
    unfold ask_ai at h
    rw [if_neg (by simp [hie])] at h
    dsimp only at h
    split at h
    · rename_i hch
      exact List.isEmpty_iff.mp hch
    · rename_i hch
      cases h
      exfalso
      unfold answer_query at hm
      rw [if_neg hch] at hm
      cases use_llm
      · simp at hm
      · cases llmOutcome <;> simp at hm

/-- Witness for C10: a store with an unloadable (missing) disk and no
records is empty, so the concrete request is rejected with 400. -/
theorem ask_ai_empty_gate_witness :
    ask_ai (fun _ => [(1 : ℚ)]) ["peraturan"] (fun _ _ => ⟨"peraturan", 1⟩) none
      ⟨1, none, .missing⟩ none "apa isi perda" 5 true = .error 400 :=
  (ask_ai_empty_gate (fun _ => [(1 : ℚ)]) ["peraturan"] (fun _ _ => ⟨"peraturan", 1⟩)
    none ⟨1, none, .missing⟩ none "apa isi perda" 5 true).1 rfl

end PolicyLegal
